import Mathlib

/-!
Verification development for the Heirlock succession ledger
(apps/contracts/src/Heirlock.sol).

Shallow embedding conventions:
- addresses, timestamps and token amounts are `Nat`;
- Solidity mappings are Lean functions with the zero-value default;
- the identity commitment keccak256(firstName, lastName, dateOfBirth) is
  modelled as the collision-free tuple of its three preimage fields
  (type `IdKey`), and keccak-based byte-string comparison is modelled as
  string equality;
- `revert` is `Except.error`, so a failed call commits nothing, matching
  the transaction-rollback semantics of the EVM;
- checked arithmetic of Solidity 0.8 is explicit: a subtraction that
  would underflow and an out-of-bounds array access raise `SErr.Panic`.
-/

abbrev Addr := Nat

abbrev IdKey := String × String × String

/-- Pointwise map update, the model of a Solidity mapping store. -/
def upd {κ β : Type} [DecidableEq κ] (f : κ → β) (k : κ) (v : β) : κ → β :=
  fun x => if x = k then v else f x

inductive ShareType where
  | NONE
  | ABSOLUTE
  | BPS
deriving DecidableEq

structure Share where
  shareType : ShareType
  shareAmount : Nat
  claimed : Bool
deriving DecidableEq

def defaultShare : Share := ⟨ShareType.NONE, 0, false⟩

inductive BeneficiaryType where
  | NONE
  | ADDRESS_ONLY
  | IDENTITY_VERIFIED
deriving DecidableEq

structure BeneficiaryIdentity where
  firstName : String
  lastName : String
  dateOfBirth : String
deriving DecidableEq

structure Will where
  beneficiary : Addr
  beneficiaryType : BeneficiaryType
  identity : BeneficiaryIdentity
  assets : List Addr
  assetToShare : Addr → Share
  assetToIndex : Addr → Nat
  claimed : Bool
  nullifier : Nat

def defaultWill : Will :=
  { beneficiary := 0
    beneficiaryType := BeneficiaryType.NONE
    identity := ⟨"", "", ""⟩
    assets := []
    assetToShare := fun _ => defaultShare
    assetToIndex := fun _ => 0
    claimed := false
    nullifier := 0 }

structure OwnerConfig where
  livenessCheckDuration : Nat
  lastCheckIn : Nat
  beneficiaryToWill : Addr → Will
  identityToWill : IdKey → Will
  beneficiaries : List Addr
  identityHashes : List IdKey
  beneficiaryToIndex : Addr → Nat
  identityHashToIndex : IdKey → Nat
  assetTotalAllocatedBps : Addr → Nat
  assetBalanceSnapshot : Addr → Nat
  assetSnapshotTaken : Addr → Bool

def defaultConfig : OwnerConfig :=
  { livenessCheckDuration := 0
    lastCheckIn := 0
    beneficiaryToWill := fun _ => defaultWill
    identityToWill := fun _ => defaultWill
    beneficiaries := []
    identityHashes := []
    beneficiaryToIndex := fun _ => 0
    identityHashToIndex := fun _ => 0
    assetTotalAllocatedBps := fun _ => 0
    assetBalanceSnapshot := fun _ => 0
    assetSnapshotTaken := fun _ => false }

structure GlobalState where
  ownerConfigs : Addr → OwnerConfig
  nullifierUsed : Nat → Bool

def initialState : GlobalState :=
  { ownerConfigs := fun _ => defaultConfig
    nullifierUsed := fun _ => false }

/-- The external token world: per-asset balances and allowances granted
to the Heirlock contract. `balances asset holder` and
`allowance asset owner` mirror `balanceOf` and `allowance`. -/
structure World where
  balances : Addr → Addr → Nat
  allowance : Addr → Addr → Nat

/-- Typed failures of the contract; `Panic` models the Solidity 0.8
checked-arithmetic / array-bounds revert. -/
inductive SErr where
  | InvalidDuration
  | ArrayLengthMismatch
  | NoApproval (asset : Addr)
  | BpsExceeded (asset : Addr) (total : Nat)
  | NotConfigured
  | OwnerStillAlive
  | NotBeneficiary
  | InvalidShareAmount
  | TransferFailed (asset : Addr)
  | InvalidBeneficiaryType
  | IdentityAlreadyClaimed
  | NullifierAlreadyUsed
  | IdentityMismatch
  | InvalidIdentityData
  | Panic
deriving DecidableEq

inductive Ev where
  | balanceSnapshotTaken (owner asset balance : Nat)
  | assetClaimed (owner claimer asset amount : Nat)
  | assetClaimFailed (owner claimer asset : Nat)
  | identityVerified (owner : Nat) (nullifier : Nat) (claimer : Nat)
deriving DecidableEq

/-- Outcome of the low-level `_token.call(data)` in `_safeTransferFrom`:
either the callee reverted, or it returned the given byte string. -/
inductive CallRet where
  | reverted
  | returned (data : List Nat)
deriving DecidableEq

/-- Big-endian value of a returned byte string, the model of
`returndatacopy(0, 0, 32)` followed by `mload(0)`. -/
def returnWord (data : List Nat) : Nat :=
  data.foldl (fun acc b => acc * 256 + b % 256) 0

/-- Model of `_safeTransferFrom` return-data normalization
(Heirlock.sol lines 495 to 525): a reverted call is failure; a returned
empty payload is success; a 32-byte payload is read as a word and
interpreted as the returned boolean; any other size is failure. -/
def safeTransferSuccess : CallRet → Bool
  | CallRet.reverted => false
  | CallRet.returned data =>
    if data.length = 0 then true
    else if data.length = 32 then !(returnWord data == 0)
    else false

/-- Canonical 32-byte ABI encoding of a boolean return value. -/
def boolWord (b : Bool) : List Nat :=
  List.replicate 31 0 ++ [if b then 1 else 0]

/-- Environment of a claim call: what each `transferFrom(from, to, amount)`
low-level call on each asset returns. -/
structure Env where
  ret : Addr → Addr → Addr → Nat → CallRet

/-- Balance effect of a successful `transferFrom(fromA, toA, amt)` on
`asset`. -/
def applyTransfer (w : World) (asset fromA toA amt : Nat) : World :=
  { w with balances := fun a h =>
      let b := w.balances a h
      let b := if a = asset ∧ h = fromA then b - amt else b
      if a = asset ∧ h = toA then b + amt else b }

/-- Model of `_removeAssetFromWill` (Heirlock.sol lines 471 to 493):
subtracts a live BPS contribution (checked, so a shortfall is the
Solidity 0.8 underflow `Panic`), swap-removes the asset from the will
asset array, and deletes its index and share entries. The later `Panic`
branches are the implicit checked `length - 1` underflow and the
out-of-bounds array write of Solidity. -/
def removeAssetFromWill (will : Will) (asset : Addr) (totals : Addr → Nat) :
    Except SErr (Will × (Addr → Nat)) :=
  let share := will.assetToShare asset
  if share.shareType = ShareType.BPS ∧ 0 < share.shareAmount ∧ totals asset < share.shareAmount then
    Except.error SErr.Panic
  else
    let totals1 :=
      if share.shareType = ShareType.BPS ∧ 0 < share.shareAmount then
        upd totals asset (totals asset - share.shareAmount)
      else totals
    if will.assets.length = 0 then Except.error SErr.Panic
    else
      let index := will.assetToIndex asset
      let lastIndex := will.assets.length - 1
      if lastIndex < index then Except.error SErr.Panic
      else
        let will1 :=
          if index ≠ lastIndex then
            let lastAsset := will.assets.getD lastIndex 0
            { will with assets := will.assets.set index lastAsset,
                        assetToIndex := upd will.assetToIndex lastAsset index }
          else will
        Except.ok
          ({ will1 with assets := will1.assets.dropLast,
                        assetToIndex := upd will1.assetToIndex asset 0,
                        assetToShare := upd will1.assetToShare asset defaultShare },
           totals1)

/-- Model of one iteration of the `_processAssets` loop
(Heirlock.sol lines 350 to 388) over one (asset, share) pair. -/
def processPair (will : Will) (totals : Addr → Nat) (asset : Addr) (newShare : Share) :
    Except SErr (Will × (Addr → Nat)) :=
  if newShare.shareType = ShareType.BPS ∧ 10000 < newShare.shareAmount then
    Except.error SErr.InvalidShareAmount
  else
    let existingShare := will.assetToShare asset
    let assetExists := existingShare.shareType ≠ ShareType.NONE
    if assetExists ∧ existingShare.shareType = ShareType.BPS ∧ 0 < existingShare.shareAmount
        ∧ totals asset < existingShare.shareAmount then
      Except.error SErr.Panic
    else
      let totals1 :=
        if assetExists ∧ existingShare.shareType = ShareType.BPS ∧ 0 < existingShare.shareAmount then
          upd totals asset (totals asset - existingShare.shareAmount)
        else totals
      if newShare.shareAmount = 0 then
        if assetExists then removeAssetFromWill will asset totals1
        else Except.ok (will, totals1)
      else
        if newShare.shareType = ShareType.BPS ∧ 10000 < totals1 asset + newShare.shareAmount then
          Except.error (SErr.BpsExceeded asset (totals1 asset + newShare.shareAmount))
        else
          let totals2 :=
            if newShare.shareType = ShareType.BPS then
              upd totals1 asset (totals1 asset + newShare.shareAmount)
            else totals1
          let will1 :=
            if assetExists then will
            else { will with assetToIndex := upd will.assetToIndex asset will.assets.length,
                             assets := will.assets ++ [asset] }
          let newRule : Share := ⟨newShare.shareType, newShare.shareAmount, false⟩
          Except.ok
            ({ will1 with assetToShare := upd will1.assetToShare asset newRule },
             totals2)

/-- Model of `_processAssets` (Heirlock.sol lines 344 to 389), folding
`processPair` over the submitted (asset, share) pairs. -/
def processAssets (will : Will) (totals : Addr → Nat) :
    List (Addr × Share) → Except SErr (Will × (Addr → Nat))
  | [] => Except.ok (will, totals)
  | p :: rest =>
    match processPair will totals p.1 p.2 with
    | Except.error e => Except.error e
    | Except.ok (w, t) => processAssets w t rest

/-- Model of `_validateApprovals` (Heirlock.sol lines 441 to 447):
reverts at the first asset with zero allowance for the contract. -/
def validateApprovals (w : World) (owner : Addr) (assets : List Addr) : Except SErr Unit :=
  match assets.find? (fun a => w.allowance a owner == 0) with
  | some a => Except.error (SErr.NoApproval a)
  | none => Except.ok ()

/-- Model of `_calculateAmount` (Heirlock.sol lines 449 to 469): an
ABSOLUTE rule pays its stored amount; a BPS rule pays
`base * amount / 10000` (truncating Nat division) where `base` is the
stored snapshot if one was taken and the live balance otherwise. -/
def calculateAmount (owner asset : Addr) (share : Share) (config : OwnerConfig)
    (world : World) : Nat :=
  match share.shareType with
  | ShareType.ABSOLUTE => share.shareAmount
  | ShareType.BPS =>
    let baseBalance :=
      if config.assetSnapshotTaken asset then config.assetBalanceSnapshot asset
      else world.balances asset owner
    baseBalance * share.shareAmount / 10000
  | ShareType.NONE => 0

/-- Model of the snapshot block of `_executeClaim`
(Heirlock.sol lines 406 to 412): on the first claim attempt against an
asset the live owner balance is stored and the taken flag set. -/
def snapshotIfNeeded (owner asset : Addr) (config : OwnerConfig) (world : World) :
    OwnerConfig × List Ev :=
  if config.assetSnapshotTaken asset then (config, [])
  else
    let balance := world.balances asset owner
    ({ config with assetBalanceSnapshot := upd config.assetBalanceSnapshot asset balance,
                   assetSnapshotTaken := upd config.assetSnapshotTaken asset true },
     [Ev.balanceSnapshotTaken owner asset balance])

/-- Marks the share rule of `asset` claimed (`share.claimed = true`). -/
def setClaimed (will : Will) (asset : Addr) : Will :=
  let share := will.assetToShare asset
  { will with assetToShare := upd will.assetToShare asset { share with claimed := true } }

/-- Mutable state threaded through the per-asset claim loop. -/
structure CS where
  will : Will
  config : OwnerConfig
  world : World
  events : List Ev

/-- Model of one iteration of the `_executeClaim` loop body
(Heirlock.sol lines 399 to 438) for one asset. -/
def claimStep (env : Env) (owner claimer : Addr) (st : CS) (asset : Addr) : CS :=
  let share := st.will.assetToShare asset
  if share.claimed then st
  else
    let snapped := snapshotIfNeeded owner asset st.config st.world
    let config := snapped.1
    let evs := snapped.2
    let amount := calculateAmount owner asset share config st.world
    if amount = 0 then
      { st with will := setClaimed st.will asset, config := config,
                events := st.events ++ evs }
    else
      let currentBalance := st.world.balances asset owner
      let transferAmount := if currentBalance < amount then currentBalance else amount
      if transferAmount = 0 then
        { st with will := setClaimed st.will asset, config := config,
                  events := st.events ++ evs }
      else
        if safeTransferSuccess (env.ret asset owner claimer transferAmount) then
          { will := setClaimed st.will asset, config := config,
            world := applyTransfer st.world asset owner claimer transferAmount,
            events := st.events ++ evs ++ [Ev.assetClaimed owner claimer asset transferAmount] }
        else
          { st with config := config,
                    events := st.events ++ evs ++ [Ev.assetClaimFailed owner claimer asset] }

/-- Model of `_executeClaim` (Heirlock.sol lines 391 to 439): iterates
the loop body over a memory copy of the will asset list; it is total,
so a declined transfer can never abort the enclosing call. -/
def executeClaim (env : Env) (owner claimer : Addr) (will : Will)
    (config : OwnerConfig) (world : World) : CS :=
  will.assets.foldl (claimStep env owner claimer) ⟨will, config, world, []⟩

/-- Model of the view `isOwnerAlive` (Heirlock.sol lines 228 to 232). -/
def isOwnerAlive (s : GlobalState) (owner now : Nat) : Bool :=
  let config := s.ownerConfigs owner
  if config.livenessCheckDuration = 0 then true
  else decide (now ≤ config.lastCheckIn + config.livenessCheckDuration)

/-- Model of `configureLiveness` (Heirlock.sol lines 106 to 114). -/
def configureLiveness (s : GlobalState) (sender dur now : Nat) : Except SErr GlobalState :=
  if dur = 0 then Except.error SErr.InvalidDuration
  else
    let config := s.ownerConfigs sender
    let config2 := { config with livenessCheckDuration := dur, lastCheckIn := now }
    Except.ok { s with ownerConfigs := upd s.ownerConfigs sender config2 }

/-- Model of `checkIn` (Heirlock.sol lines 185 to 191). -/
def checkIn (s : GlobalState) (sender now : Nat) : Except SErr GlobalState :=
  let config := s.ownerConfigs sender
  if config.livenessCheckDuration = 0 then Except.error SErr.NotConfigured
  else
    let config2 := { config with lastCheckIn := now }
    Except.ok { s with ownerConfigs := upd s.ownerConfigs sender config2 }

/-- Model of `createWill` (Heirlock.sol lines 116 to 143). Assets and
shares arrive pre-zipped, so the `ArrayLengthMismatch` guard is
satisfied by construction. -/
def createWill (s : GlobalState) (w : World) (sender benef : Addr)
    (pairs : List (Addr × Share)) : Except SErr GlobalState :=
  if benef = 0 then Except.error SErr.NotBeneficiary
  else
    let config := s.ownerConfigs sender
    if config.livenessCheckDuration = 0 then Except.error SErr.NotConfigured
    else
      match validateApprovals w sender (pairs.map Prod.fst) with
      | Except.error e => Except.error e
      | Except.ok _ =>
        let will := config.beneficiaryToWill benef
        let isNew := will.beneficiaryType = BeneficiaryType.NONE
        let will :=
          if isNew then
            { will with beneficiary := benef, beneficiaryType := BeneficiaryType.ADDRESS_ONLY }
          else will
        let config :=
          if isNew then
            { config with beneficiaryToIndex := upd config.beneficiaryToIndex benef config.beneficiaries.length,
                          beneficiaries := config.beneficiaries ++ [benef] }
          else config
        match processAssets will config.assetTotalAllocatedBps pairs with
        | Except.error e => Except.error e
        | Except.ok (will2, totals2) =>
          let config2 := { config with beneficiaryToWill := upd config.beneficiaryToWill benef will2,
                                       assetTotalAllocatedBps := totals2 }
          Except.ok { s with ownerConfigs := upd s.ownerConfigs sender config2 }

/-- Model of `createIdentityWill` (Heirlock.sol lines 145 to 183). The
identity hash is the collision-free tuple of the three fields. -/
def createIdentityWill (s : GlobalState) (w : World) (sender : Addr)
    (identity : BeneficiaryIdentity) (pairs : List (Addr × Share)) :
    Except SErr GlobalState :=
  if identity.firstName = "" ∨ identity.lastName = "" ∨ identity.dateOfBirth = "" then
    Except.error SErr.InvalidIdentityData
  else
    let config := s.ownerConfigs sender
    if config.livenessCheckDuration = 0 then Except.error SErr.NotConfigured
    else
      match validateApprovals w sender (pairs.map Prod.fst) with
      | Except.error e => Except.error e
      | Except.ok _ =>
        let identityHash : IdKey := (identity.firstName, identity.lastName, identity.dateOfBirth)
        let will := config.identityToWill identityHash
        let isNew := will.beneficiaryType ≠ BeneficiaryType.IDENTITY_VERIFIED
        let will :=
          if isNew then
            { will with beneficiary := 0,
                        beneficiaryType := BeneficiaryType.IDENTITY_VERIFIED,
                        identity := identity }
          else will
        let config :=
          if isNew then
            { config with identityHashToIndex := upd config.identityHashToIndex identityHash config.identityHashes.length,
                          identityHashes := config.identityHashes ++ [identityHash] }
          else config
        match processAssets will config.assetTotalAllocatedBps pairs with
        | Except.error e => Except.error e
        | Except.ok (will2, totals2) =>
          let config2 := { config with identityToWill := upd config.identityToWill identityHash will2,
                                       assetTotalAllocatedBps := totals2 }
          Except.ok { s with ownerConfigs := upd s.ownerConfigs sender config2 }

/-- Model of `claim` (Heirlock.sol lines 193 to 204): liveness gate,
beneficiary existence gate, then the per-asset claim loop with the
caller as both will key and transfer recipient. -/
def claim (env : Env) (s : GlobalState) (w : World) (owner caller now : Nat) :
    Except SErr (GlobalState × World × List Ev) :=
  let config := s.ownerConfigs owner
  if now ≤ config.lastCheckIn + config.livenessCheckDuration then
    Except.error SErr.OwnerStillAlive
  else
    let will := config.beneficiaryToWill caller
    if will.beneficiaryType = BeneficiaryType.NONE then Except.error SErr.NotBeneficiary
    else
      let st := executeClaim env owner caller will config w
      let config2 := { st.config with beneficiaryToWill := upd st.config.beneficiaryToWill caller st.will }
      Except.ok
        ({ s with ownerConfigs := upd s.ownerConfigs owner config2 },
         st.world, st.events)

/-- Model of `claimWithIdentity` (Heirlock.sol lines 206 to 224): the
source performs the three eligibility checks, then computes the
verification payload and the caller identifier but invokes nothing with
them, so the function returns without transferring or changing state. -/
def claimWithIdentity (s : GlobalState) (owner : Addr) (idHash : IdKey) (now : Nat) :
    Except SErr GlobalState :=
  let config := s.ownerConfigs owner
  if now ≤ config.lastCheckIn + config.livenessCheckDuration then
    Except.error SErr.OwnerStillAlive
  else
    let will := config.identityToWill idHash
    if will.beneficiaryType ≠ BeneficiaryType.IDENTITY_VERIFIED then
      Except.error SErr.NotBeneficiary
    else if will.claimed then Except.error SErr.IdentityAlreadyClaimed
    else Except.ok s

/-- Disclosed output of the external proof verifier, as consumed by
`customVerificationHook`: `firstName`/`lastName` are `output.name[0]`
and `output.name[1]`. -/
structure DiscloseOutput where
  nullifier : Nat
  firstName : String
  lastName : String
  dateOfBirth : String
  userIdentifier : Nat

/-- Model of `_verifyIdentityMatch` (Heirlock.sol lines 527 to 536):
field-by-field comparison, with keccak equality of byte strings
modelled as string equality. -/
def verifyIdentityMatch (expected : BeneficiaryIdentity) (d : DiscloseOutput) : Bool :=
  expected.firstName == d.firstName && expected.lastName == d.lastName
    && expected.dateOfBirth == d.dateOfBirth

/-- Model of `customVerificationHook` (Heirlock.sol lines 310 to 340):
the externally-triggered identity-claim path. It gates on nullifier
freshness and identity match, then records the nullifier, marks the
will claimed and runs the per-asset claim loop for the claimer
disclosed by the proof. It performs no liveness check. -/
def customVerificationHook (env : Env) (s : GlobalState) (w : World) (owner : Addr)
    (expectedIdentityHash : IdKey) (output : DiscloseOutput) :
    Except SErr (GlobalState × World × List Ev) :=
  if s.nullifierUsed output.nullifier then Except.error SErr.NullifierAlreadyUsed
  else
    let verifiedIdentityHash : IdKey := (output.firstName, output.lastName, output.dateOfBirth)
    if verifiedIdentityHash ≠ expectedIdentityHash then Except.error SErr.IdentityMismatch
    else
      let config := s.ownerConfigs owner
      let will := config.identityToWill expectedIdentityHash
      if ¬ verifyIdentityMatch will.identity output then Except.error SErr.IdentityMismatch
      else
        let s1 : GlobalState := { s with nullifierUsed := upd s.nullifierUsed output.nullifier true }
        let will := { will with claimed := true, nullifier := output.nullifier }
        let claimer := output.userIdentifier
        let st := executeClaim env owner claimer will config w
        let config2 := { st.config with identityToWill := upd st.config.identityToWill expectedIdentityHash st.will }
        Except.ok
          ({ s1 with ownerConfigs := upd s1.ownerConfigs owner config2 },
           st.world,
           Ev.identityVerified owner output.nullifier claimer :: st.events)

/-- Contribution of one share rule to the BPS allocation sum. -/
def bpsAmountOf (sh : Share) : Nat :=
  if sh.shareType = ShareType.BPS then sh.shareAmount else 0

/-- Actual sum of BPS rule amounts for `asset` across all registered
beneficiaries (address-based and identity-based) of one owner config:
the quantity the spec invariant bounds by 10000. -/
def sumBps (config : OwnerConfig) (asset : Addr) : Nat :=
  (config.beneficiaries.map (fun b => bpsAmountOf ((config.beneficiaryToWill b).assetToShare asset))).sum
  + (config.identityHashes.map (fun h => bpsAmountOf ((config.identityToWill h).assetToShare asset))).sum

/-- Environment in which every transfer call returns an empty payload
(success for the normalizer). -/
def okEnv : Env := ⟨fun _ _ _ _ => CallRet.returned []⟩

/-- World with no balances and a unit allowance everywhere. -/
def oneWorld : World := ⟨fun _ _ => 0, fun _ _ => 1⟩

/-- Shorthand for an unclaimed BPS share rule. -/
def bpsShare (n : Nat) : Share := ⟨ShareType.BPS, n, false⟩

/-- Identity fields of the scenario beneficiary for the hook path. -/
def c1Identity : BeneficiaryIdentity := ⟨"a", "b", "c"⟩

/-- Identity commitment of `c1Identity`. -/
def c1Key : IdKey := ("a", "b", "c")

/-- Identity will holding one ABSOLUTE rule of 10 units of asset 7. -/
def c1Will : Will :=
  { defaultWill with beneficiaryType := BeneficiaryType.IDENTITY_VERIFIED,
                     identity := c1Identity,
                     assets := [7],
                     assetToShare := upd (fun _ => defaultShare) 7 ⟨ShareType.ABSOLUTE, 10, false⟩ }

/-- Owner 1 configured with window 100 and last check-in 50, holding the
identity will `c1Will`. -/
def c1Cfg : OwnerConfig :=
  { defaultConfig with livenessCheckDuration := 100,
                       lastCheckIn := 50,
                       identityToWill := upd (fun _ => defaultWill) c1Key c1Will,
                       identityHashes := [c1Key] }

/-- Global state for the hook scenario. -/
def c1S : GlobalState := { initialState with ownerConfigs := upd initialState.ownerConfigs 1 c1Cfg }

/-- World in which owner 1 holds 1000 units of asset 7. -/
def c1World : World := ⟨fun a h => if a = 7 ∧ h = 1 then 1000 else 0, fun _ _ => 1⟩

/-- Disclosed proof output matching `c1Identity`, nullifier 99,
submitted by account 5. -/
def c1Out : DiscloseOutput := ⟨99, "a", "b", "c", 5⟩

/-- Call sequence for the allocation-sum scenario: owner 1 allocates
5000 bps of asset 7 to each of beneficiaries 11 and 12, deletes the
rule of 12 with a zero-amount update, then allocates 10000 bps of
asset 7 to beneficiary 13. -/
def c2Result : Except SErr GlobalState :=
  (configureLiveness initialState 1 100 10).bind fun s1 =>
  (createWill s1 oneWorld 1 11 [(7, bpsShare 5000)]).bind fun s2 =>
  (createWill s2 oneWorld 1 12 [(7, bpsShare 5000)]).bind fun s3 =>
  (createWill s3 oneWorld 1 12 [(7, bpsShare 0)]).bind fun s4 =>
  createWill s4 oneWorld 1 13 [(7, bpsShare 10000)]

/-- A will whose BPS rule on asset 7 has already been claimed. -/
def c3Will : Will :=
  { defaultWill with beneficiaryType := BeneficiaryType.ADDRESS_ONLY,
                     assets := [7],
                     assetToShare := upd (fun _ => defaultShare) 7 ⟨ShareType.BPS, 5000, true⟩ }

/-- Allocation totals consistent with `c3Will`. -/
def c3Totals : Addr → Nat := upd (fun _ => 0) 7 5000

/-- Call sequence for the deletion scenario: owner 1 allocates 5000 bps
of asset 7 to beneficiary 11, then submits a zero-amount update for the
same asset. -/
def c4Result : Except SErr GlobalState :=
  (configureLiveness initialState 1 100 10).bind fun s1 =>
  (createWill s1 oneWorld 1 11 [(7, bpsShare 5000)]).bind fun s2 =>
  createWill s2 oneWorld 1 11 [(7, bpsShare 0)]

/-- Outcome of one `_executeClaim` loop iteration for the share rule of
one asset, as a function of only that asset's prior state: the rule
itself, the snapshot flag and value, and the owner live balance. The
per-asset independence theorem shows the loop computes exactly this. -/
def stepShareOutcome (env : Env) (owner claimer : Addr) (share : Share) (taken : Bool)
    (snap bal : Nat) (asset : Addr) : Share :=
  if share.claimed then share
  else
    let base := if taken then snap else bal
    let amount :=
      match share.shareType with
      | ShareType.ABSOLUTE => share.shareAmount
      | ShareType.BPS => base * share.shareAmount / 10000
      | ShareType.NONE => 0
    if amount = 0 then { share with claimed := true }
    else
      let transferAmount := if bal < amount then bal else amount
      if transferAmount = 0 then { share with claimed := true }
      else if safeTransferSuccess (env.ret asset owner claimer transferAmount) then
        { share with claimed := true }
      else share

/-- The transfer-shaped events of a claim name `c` as the recipient. -/
def evClaimerIs (c : Nat) : Ev → Prop
  | Ev.assetClaimed _ c2 _ _ => c2 = c
  | Ev.assetClaimFailed _ c2 _ => c2 = c
  | _ => True

/-- State after configuring owner 1 with window 100 at time 10. -/
def cfgdState : GlobalState := (configureLiveness initialState 1 100 10).toOption.getD initialState

/-- Result of overwriting the claimed BPS rule of `c3Will`. -/
def resOverwrite : Will × (Addr → Nat) :=
  (processPair c3Will c3Totals 7 ⟨ShareType.BPS, 4000, false⟩).toOption.getD (defaultWill, fun _ => 0)

/-- Config with a snapshot of 500 already taken for asset 7. -/
def c5Cfg : OwnerConfig :=
  { defaultConfig with assetSnapshotTaken := upd (fun _ => false) 7 true,
                       assetBalanceSnapshot := upd (fun _ => 0) 7 500 }

/-- Result of a will creation on the configured state. -/
def resCreateWill5 : GlobalState :=
  (createWill cfgdState oneWorld 1 11 [(7, bpsShare 10)]).toOption.getD initialState

/-- Address will of beneficiary 2 with one unclaimed ABSOLUTE rule. -/
def c10Will : Will :=
  { defaultWill with beneficiaryType := BeneficiaryType.ADDRESS_ONLY,
                     beneficiary := 2,
                     assets := [7],
                     assetToShare := upd (fun _ => defaultShare) 7 ⟨ShareType.ABSOLUTE, 10, false⟩ }

/-- Owner config holding both the identity will `c1Will` and the
address will `c10Will` of beneficiary 2. -/
def demoCfg : OwnerConfig :=
  { c1Cfg with beneficiaryToWill := upd c1Cfg.beneficiaryToWill 2 c10Will,
               beneficiaries := [2] }

/-- Global state for the witness scenarios: owner 1 runs `demoCfg` and
nullifier 99 is already consumed. -/
def demoBase : GlobalState :=
  { ownerConfigs := upd (fun _ => defaultConfig) 1 demoCfg,
    nullifierUsed := upd (fun _ => false) 99 true }

/-- Disclosed proof output with the fresh nullifier 77. -/
def demoOut77 : DiscloseOutput := ⟨77, "a", "b", "c", 5⟩

/-- Successful operation results on `demoBase`, for concrete witnesses. -/
def resCfgLive : GlobalState := (configureLiveness demoBase 1 100 10).toOption.getD initialState

/-- Result of a check-in by owner 1 on `demoBase`. -/
def resCheckIn : GlobalState := (checkIn demoBase 1 20).toOption.getD initialState

/-- Result of a will creation for beneficiary 11 on `demoBase`. -/
def resCreateWill8 : GlobalState :=
  (createWill demoBase oneWorld 1 11 [(7, bpsShare 10)]).toOption.getD initialState

/-- Result of an identity-will creation on `demoBase`. -/
def resCreateIdWill : GlobalState :=
  (createIdentityWill demoBase oneWorld 1 ⟨"x", "y", "z"⟩ []).toOption.getD initialState

/-- Result of the dead-end `claimWithIdentity` call on `demoBase`. -/
def resClaimWithId : GlobalState :=
  (claimWithIdentity demoBase 1 c1Key 200).toOption.getD initialState

/-- Result of a direct claim by beneficiary 2 on `demoBase` at time 200. -/
def resClaim : GlobalState × World × List Ev :=
  (claim okEnv demoBase c1World 1 2 200).toOption.getD (initialState, oneWorld, [])

/-- Result of the verification hook on `demoBase` with nullifier 77. -/
def resHook : GlobalState × World × List Ev :=
  (customVerificationHook okEnv demoBase c1World 1 c1Key demoOut77).toOption.getD
    (initialState, oneWorld, [])

/-- Result of the verification hook on `c1S` (nullifier 99 fresh). -/
def resHookC1 : GlobalState × World × List Ev :=
  (customVerificationHook okEnv c1S c1World 1 c1Key c1Out).toOption.getD
    (initialState, oneWorld, [])

/-- Will with two unclaimed ABSOLUTE rules, on assets 7 and 8. -/
def c7Will : Will :=
  { defaultWill with beneficiaryType := BeneficiaryType.ADDRESS_ONLY,
                     assets := [7, 8],
                     assetToShare := upd (upd (fun _ => defaultShare) 7 ⟨ShareType.ABSOLUTE, 10, false⟩)
                       8 ⟨ShareType.ABSOLUTE, 20, false⟩ }

/-- World in which owner 1 holds 1000 units of assets 7 and 8. -/
def c7World : World := ⟨fun a h => if (a = 7 ∨ a = 8) ∧ h = 1 then 1000 else 0, fun _ _ => 1⟩

/-- Environment in which transfers of asset 8 revert and all others
return an empty payload. -/
def c7Env : Env := ⟨fun a _ _ _ => if a = 8 then CallRet.reverted else CallRet.returned []⟩

/-! Helper lemmas. -/

theorem upd_same {κ β : Type} [DecidableEq κ] (f : κ → β) (k : κ) (v : β) :
    upd f k v k = v := by
  simp [upd]

theorem upd_ne {κ β : Type} [DecidableEq κ] (f : κ → β) (k : κ) (v : β)
    (x : κ) (h : x ≠ k) : upd f k v x = f x := by
  simp [upd, h]

theorem claimStep_keeps_beneficiaryToWill (env : Env) (o c : Addr) (st : CS) (a : Addr) :
    (claimStep env o c st a).config.beneficiaryToWill = st.config.beneficiaryToWill := by
  by_cases h1 : (st.will.assetToShare a).claimed <;>
    simp only [claimStep, snapshotIfNeeded, h1, if_true, if_false, Bool.false_eq_true] <;>
    split_ifs <;> rfl

theorem claimStep_keeps_identityToWill (env : Env) (o c : Addr) (st : CS) (a : Addr) :
    (claimStep env o c st a).config.identityToWill = st.config.identityToWill := by
  by_cases h1 : (st.will.assetToShare a).claimed <;>
    simp only [claimStep, snapshotIfNeeded, h1, if_true, if_false, Bool.false_eq_true] <;>
    split_ifs <;> rfl

theorem claimStep_snap_frame (env : Env) (o c : Addr) (st : CS) (a x : Addr) (hx : x ≠ a) :
    (claimStep env o c st a).config.assetSnapshotTaken x = st.config.assetSnapshotTaken x ∧
    (claimStep env o c st a).config.assetBalanceSnapshot x = st.config.assetBalanceSnapshot x := by
  by_cases h1 : (st.will.assetToShare a).claimed <;>
    simp only [claimStep, snapshotIfNeeded, h1, if_true, if_false, Bool.false_eq_true] <;>
    (try split_ifs) <;> simp [upd_ne _ _ _ _ hx]

theorem claimStep_share_frame (env : Env) (o c : Addr) (st : CS) (a x : Addr) (hx : x ≠ a) :
    (claimStep env o c st a).will.assetToShare x = st.will.assetToShare x := by
  by_cases h1 : (st.will.assetToShare a).claimed <;>
    simp only [claimStep, snapshotIfNeeded, h1, if_true, if_false, Bool.false_eq_true] <;>
    split_ifs <;> simp [setClaimed, upd_ne _ _ _ _ hx]

theorem claimStep_bal_frame (env : Env) (o c : Addr) (st : CS) (a x h : Addr) (hx : x ≠ a) :
    (claimStep env o c st a).world.balances x h = st.world.balances x h := by
  by_cases h1 : (st.will.assetToShare a).claimed <;>
    simp only [claimStep, snapshotIfNeeded, h1, if_true, if_false, Bool.false_eq_true] <;>
    split_ifs <;> simp [applyTransfer, hx]

theorem claimStep_snap_mono (env : Env) (o c : Addr) (st : CS) (a x : Addr)
    (hx : st.config.assetSnapshotTaken x = true) :
    (claimStep env o c st a).config.assetSnapshotTaken x = true ∧
    (claimStep env o c st a).config.assetBalanceSnapshot x = st.config.assetBalanceSnapshot x := by
  by_cases hax : x = a
  · subst hax
    by_cases h1 : (st.will.assetToShare x).claimed <;>
      simp only [claimStep, snapshotIfNeeded, h1, hx, if_true, if_false, Bool.false_eq_true] <;>
      (try split_ifs) <;> simp [hx]
  · have := claimStep_snap_frame env o c st a x hax
    exact ⟨this.1.trans hx, this.2⟩

theorem claimStep_claimed_mono (env : Env) (o c : Addr) (st : CS) (a x : Addr)
    (hx : (st.will.assetToShare x).claimed = true) :
    ((claimStep env o c st a).will.assetToShare x).claimed = true := by
  by_cases hax : x = a
  · subst hax
    simp only [claimStep, snapshotIfNeeded, hx, if_true]
  · rw [claimStep_share_frame env o c st a x hax]
    exact hx

theorem claimStep_share_eq (env : Env) (o c : Addr) (st : CS) (a : Addr) :
    (claimStep env o c st a).will.assetToShare a =
    stepShareOutcome env o c (st.will.assetToShare a) (st.config.assetSnapshotTaken a)
      (st.config.assetBalanceSnapshot a) (st.world.balances a o) a := by
  by_cases h1 : (st.will.assetToShare a).claimed
  · simp [claimStep, stepShareOutcome, h1]
  · by_cases h2 : st.config.assetSnapshotTaken a <;>
      simp only [claimStep, stepShareOutcome, snapshotIfNeeded, calculateAmount, setClaimed,
        h1, h2, if_true, if_false, Bool.false_eq_true, upd_same] <;>
      split_ifs <;> simp_all [upd_same]

theorem foldl_claimStep_preserve (env : Env) (o c : Addr) (P : CS → Prop)
    (h : ∀ st a, P st → P (claimStep env o c st a)) :
    ∀ (l : List Addr) (st : CS), P st → P (l.foldl (claimStep env o c) st) := by
  intro l
  induction l with
  | nil => intro st hst; exact hst
  | cons b t ih => intro st hst; exact ih _ (h st b hst)

theorem executeClaim_claimed_mono (env : Env) (o c : Addr) (will : Will)
    (config : OwnerConfig) (world : World) (x : Addr)
    (hx : (will.assetToShare x).claimed = true) :
    ((executeClaim env o c will config world).will.assetToShare x).claimed = true := by
  exact foldl_claimStep_preserve env o c (fun st => (st.will.assetToShare x).claimed = true)
    (fun st a h => claimStep_claimed_mono env o c st a x h) will.assets ⟨will, config, world, []⟩ hx

theorem executeClaim_snap_mono (env : Env) (o c : Addr) (will : Will)
    (config : OwnerConfig) (world : World) (x : Addr)
    (hx : config.assetSnapshotTaken x = true) :
    (executeClaim env o c will config world).config.assetSnapshotTaken x = true ∧
    (executeClaim env o c will config world).config.assetBalanceSnapshot x =
      config.assetBalanceSnapshot x := by
  exact foldl_claimStep_preserve env o c
    (fun st => st.config.assetSnapshotTaken x = true ∧
      st.config.assetBalanceSnapshot x = config.assetBalanceSnapshot x)
    (fun st a h => by
      have := claimStep_snap_mono env o c st a x h.1
      exact ⟨this.1, this.2.trans h.2⟩)
    will.assets ⟨will, config, world, []⟩ ⟨hx, rfl⟩

theorem executeClaim_keeps_beneficiaryToWill (env : Env) (o c : Addr) (will : Will)
    (config : OwnerConfig) (world : World) :
    (executeClaim env o c will config world).config.beneficiaryToWill =
      config.beneficiaryToWill := by
  exact foldl_claimStep_preserve env o c
    (fun st => st.config.beneficiaryToWill = config.beneficiaryToWill)
    (fun st a h => (claimStep_keeps_beneficiaryToWill env o c st a).trans h)
    will.assets ⟨will, config, world, []⟩ rfl

theorem claimStep_events_claimer (env : Env) (o c : Addr) (st : CS) (a : Addr)
    (hst : ∀ e ∈ st.events, evClaimerIs c e) :
    ∀ e ∈ (claimStep env o c st a).events, evClaimerIs c e := by
  by_cases h1 : (st.will.assetToShare a).claimed <;>
    by_cases h2 : st.config.assetSnapshotTaken a <;>
    simp only [claimStep, snapshotIfNeeded, h1, h2, if_true, if_false, Bool.false_eq_true] <;>
    (try split_ifs) <;>
    intro e he <;>
    (try simp only [List.mem_append, List.append_nil, List.mem_singleton, or_assoc] at he) <;>
    (first
      | exact hst e he
      | (rcases he with he | he
         · exact hst e he
         · first
             | (subst he; simp [evClaimerIs])
             | (rcases he with he | he
                · subst he; simp [evClaimerIs]
                · subst he; simp [evClaimerIs])))

theorem executeClaim_events_claimer (env : Env) (o c : Addr) (will : Will)
    (config : OwnerConfig) (world : World) :
    ∀ e ∈ (executeClaim env o c will config world).events, evClaimerIs c e := by
  exact foldl_claimStep_preserve env o c (fun st => ∀ e ∈ st.events, evClaimerIs c e)
    (fun st a h => claimStep_events_claimer env o c st a h)
    will.assets ⟨will, config, world, []⟩ (by intro e he; cases he)

theorem foldl_claimStep_frame (env : Env) (o c : Addr) (a : Addr) :
    ∀ (l : List Addr), a ∉ l → ∀ st : CS,
      (l.foldl (claimStep env o c) st).will.assetToShare a = st.will.assetToShare a ∧
      (l.foldl (claimStep env o c) st).config.assetSnapshotTaken a = st.config.assetSnapshotTaken a ∧
      (l.foldl (claimStep env o c) st).config.assetBalanceSnapshot a = st.config.assetBalanceSnapshot a ∧
      (l.foldl (claimStep env o c) st).world.balances a o = st.world.balances a o := by
  intro l
  induction l with
  | nil => intro _ st; exact ⟨rfl, rfl, rfl, rfl⟩
  | cons b t ih =>
    intro hal st
    have hab : a ≠ b := fun h => hal (h ▸ List.mem_cons_self b t)
    have hat : a ∉ t := fun h => hal (List.mem_cons_of_mem b h)
    have h1 := claimStep_share_frame env o c st b a hab
    have h2 := claimStep_snap_frame env o c st b a hab
    have h3 := claimStep_bal_frame env o c st b a o hab
    have ht := ih hat (claimStep env o c st b)
    simp only [List.foldl_cons]
    exact ⟨ht.1.trans h1, ht.2.1.trans h2.1, ht.2.2.1.trans h2.2, ht.2.2.2.trans h3⟩

theorem executeClaim_share_pointwise (env : Env) (o c : Addr) (will : Will)
    (config : OwnerConfig) (world : World) (h : will.assets.Nodup)
    (a : Addr) (ha : a ∈ will.assets) :
    (executeClaim env o c will config world).will.assetToShare a =
    stepShareOutcome env o c (will.assetToShare a) (config.assetSnapshotTaken a)
      (config.assetBalanceSnapshot a) (world.balances a o) a := by
  obtain ⟨l1, l2, heq⟩ := List.append_of_mem ha
  have hsplit : will.assets.foldl (claimStep env o c) ⟨will, config, world, []⟩ =
      l2.foldl (claimStep env o c)
        (claimStep env o c (l1.foldl (claimStep env o c) ⟨will, config, world, []⟩) a) := by
    rw [heq, List.foldl_append, List.foldl_cons]
  have hnd : a ∉ l1 ∧ a ∉ l2 := by
    rw [heq] at h
    constructor
    · intro hmem
      have := (List.nodup_append.mp h).2.2
      exact this hmem (List.mem_cons_self a l2)
    · have := (List.nodup_append.mp h).2.1
      exact (List.nodup_cons.mp this).1
  set st0 : CS := ⟨will, config, world, []⟩ with hst0
  have hf1 := foldl_claimStep_frame env o c a l1 hnd.1 st0
  have hmid := claimStep_share_eq env o c (l1.foldl (claimStep env o c) st0) a
  have hf2 := foldl_claimStep_frame env o c a l2 hnd.2
    (claimStep env o c (l1.foldl (claimStep env o c) st0) a)
  show (will.assets.foldl (claimStep env o c) st0).will.assetToShare a = _
  rw [hsplit]
  rw [hf2.1, hmid, hf1.1, hf1.2.1, hf1.2.2.1, hf1.2.2.2]

theorem claim_error_cases (env : Env) (s : GlobalState) (w : World) (o c now : Nat)
    (e : SErr) (h : claim env s w o c now = Except.error e) :
    e = SErr.OwnerStillAlive ∨ e = SErr.NotBeneficiary := by
  simp only [claim] at h
  split_ifs at h with h1 h2
  · cases h; exact Or.inl rfl
  · cases h; exact Or.inr rfl

theorem snapshotIfNeeded_taken (o a : Addr) (config : OwnerConfig) (world : World) :
    (snapshotIfNeeded o a config world).1.assetSnapshotTaken a = true := by
  unfold snapshotIfNeeded
  split_ifs with h
  · exact h
  · simp [upd_same]

theorem snapshotIfNeeded_already (o a : Addr) (config : OwnerConfig) (world : World)
    (h : config.assetSnapshotTaken a = true) :
    (snapshotIfNeeded o a config world).1 = config := by
  simp [snapshotIfNeeded, h]

theorem calculateAmount_bps_snapshot (o a : Addr) (share : Share) (config : OwnerConfig)
    (world : World) (h1 : config.assetSnapshotTaken a = true)
    (h2 : share.shareType = ShareType.BPS) :
    calculateAmount o a share config world =
      config.assetBalanceSnapshot a * share.shareAmount / 10000 := by
  simp [calculateAmount, h1, h2]

theorem createWill_keeps_snapshots (s : GlobalState) (w : World) (sender benef : Addr)
    (pairs : List (Addr × Share)) (s2 : GlobalState)
    (h : createWill s w sender benef pairs = Except.ok s2) (o a : Addr) :
    (s2.ownerConfigs o).assetSnapshotTaken a = (s.ownerConfigs o).assetSnapshotTaken a ∧
    (s2.ownerConfigs o).assetBalanceSnapshot a = (s.ownerConfigs o).assetBalanceSnapshot a := by
  simp only [createWill] at h
  split_ifs at h with hb hc hnew <;>
    (split at h
     · simp at h
     · split at h
       · simp at h
       · cases h
         refine ⟨?_, ?_⟩ <;> by_cases ho : o = sender <;> simp [upd, ho])

theorem configureLiveness_keeps_nullifiers (s : GlobalState) (x d t : Nat) (s2 : GlobalState)
    (h : configureLiveness s x d t = Except.ok s2) : s2.nullifierUsed = s.nullifierUsed := by
  simp only [configureLiveness] at h
  split_ifs at h
  cases h
  rfl

theorem checkIn_keeps_nullifiers (s : GlobalState) (x t : Nat) (s2 : GlobalState)
    (h : checkIn s x t = Except.ok s2) : s2.nullifierUsed = s.nullifierUsed := by
  simp only [checkIn] at h
  split_ifs at h
  cases h
  rfl

theorem createWill_keeps_nullifiers (s : GlobalState) (w : World) (sender benef : Addr)
    (pairs : List (Addr × Share)) (s2 : GlobalState)
    (h : createWill s w sender benef pairs = Except.ok s2) :
    s2.nullifierUsed = s.nullifierUsed := by
  simp only [createWill] at h
  split_ifs at h <;>
    (split at h
     · simp at h
     · split at h
       · simp at h
       · cases h; rfl)

theorem createIdentityWill_keeps_nullifiers (s : GlobalState) (w : World) (sender : Addr)
    (identity : BeneficiaryIdentity) (pairs : List (Addr × Share)) (s2 : GlobalState)
    (h : createIdentityWill s w sender identity pairs = Except.ok s2) :
    s2.nullifierUsed = s.nullifierUsed := by
  simp only [createIdentityWill] at h
  split_ifs at h <;>
    (split at h
     · simp at h
     · split at h
       · simp at h
       · cases h; rfl)

theorem claimWithIdentity_keeps_state (s : GlobalState) (owner : Addr) (idHash : IdKey)
    (now : Nat) (s2 : GlobalState) (h : claimWithIdentity s owner idHash now = Except.ok s2) :
    s2 = s := by
  simp only [claimWithIdentity] at h
  split_ifs at h
  cases h
  rfl

theorem claim_keeps_nullifiers (env : Env) (s : GlobalState) (w : World) (o c now : Nat)
    (r : GlobalState × World × List Ev) (h : claim env s w o c now = Except.ok r) :
    r.1.nullifierUsed = s.nullifierUsed := by
  simp only [claim] at h
  split_ifs at h
  cases h
  rfl

theorem hook_sets_nullifier (env : Env) (s : GlobalState) (w : World) (owner : Addr)
    (key : IdKey) (output : DiscloseOutput) (r : GlobalState × World × List Ev)
    (h : customVerificationHook env s w owner key output = Except.ok r) :
    r.1.nullifierUsed = upd s.nullifierUsed output.nullifier true := by
  simp only [customVerificationHook] at h
  split_ifs at h
  cases h
  rfl

theorem hook_rejects_used_nullifier (env : Env) (s : GlobalState) (w : World) (owner : Addr)
    (key : IdKey) (output : DiscloseOutput) (h : s.nullifierUsed output.nullifier = true) :
    customVerificationHook env s w owner key output = Except.error SErr.NullifierAlreadyUsed := by
  simp [customVerificationHook, h]

set_option maxHeartbeats 1000000 in
theorem processPair_claimed_mono (will : Will) (totals : Addr → Nat) (a : Addr) (sh : Share)
    (r : Will × (Addr → Nat)) (h : processPair will totals a sh = Except.ok r) (x : Addr)
    (h2 : (r.1.assetToShare x).claimed = true) : (will.assetToShare x).claimed = true := by
  simp only [processPair, removeAssetFromWill] at h
  split_ifs at h <;> (try simp at h) <;>
    (cases h
     first
       | exact h2
       | (by_cases hx : x = a
          · subst hx
            simp only [upd_same] at h2
            simp [defaultShare] at h2
          · simp only [upd_ne _ _ _ _ hx] at h2
            exact h2))

theorem processAssets_claimed_mono :
    ∀ (pairs : List (Addr × Share)) (will : Will) (totals : Addr → Nat)
      (r : Will × (Addr → Nat)), processAssets will totals pairs = Except.ok r →
      ∀ x : Addr, (r.1.assetToShare x).claimed = true →
      (will.assetToShare x).claimed = true := by
  intro pairs
  induction pairs with
  | nil =>
    intro will totals r h x h2
    simp only [processAssets] at h
    cases h
    exact h2
  | cons p t ih =>
    intro will totals r h x h2
    simp only [processAssets] at h
    cases hp : processPair will totals p.1 p.2 with
    | error e => rw [hp] at h; simp at h
    | ok wt =>
      rw [hp] at h
      exact processPair_claimed_mono will totals p.1 p.2 wt hp x (ih wt.1 wt.2 r h x h2)

theorem processPair_fresh_rule (will : Will) (totals : Addr → Nat) (a : Addr) (sh : Share)
    (r : Will × (Addr → Nat)) (h : processPair will totals a sh = Except.ok r)
    (hnz : sh.shareAmount ≠ 0) : (r.1.assetToShare a).claimed = false := by
  simp only [processPair, removeAssetFromWill] at h
  split_ifs at h <;> (try simp_all) <;>
    (cases h
     simp [upd_same])

theorem stepShareOutcome_unresolved (env : Env) (o c : Addr) (share : Share) (taken : Bool)
    (snap bal : Nat) (a : Addr)
    (h : (stepShareOutcome env o c share taken snap bal a).claimed = false) :
    stepShareOutcome env o c share taken snap bal a = share := by
  simp only [stepShareOutcome] at h ⊢
  split_ifs at h ⊢ <;> simp_all

theorem stepShareOutcome_cases (env : Env) (o c : Addr) (share : Share) (taken : Bool)
    (snap bal : Nat) (a : Addr) :
    stepShareOutcome env o c share taken snap bal a = share ∨
    stepShareOutcome env o c share taken snap bal a = { share with claimed := true } := by
  simp only [stepShareOutcome]
  split_ifs <;> simp

theorem claim_osa_iff (env : Env) (s : GlobalState) (w : World) (o c now : Nat) :
    claim env s w o c now = Except.error SErr.OwnerStillAlive ↔
      now ≤ (s.ownerConfigs o).lastCheckIn + (s.ownerConfigs o).livenessCheckDuration := by
  constructor
  · intro h
    by_contra hn
    simp only [claim] at h
    rw [if_neg hn] at h
    split_ifs at h <;> cases h
  · intro h
    simp only [claim]
    rw [if_pos h]

theorem isOwnerAlive_iff (s : GlobalState) (o now : Nat)
    (hd : (s.ownerConfigs o).livenessCheckDuration ≠ 0) :
    isOwnerAlive s o now = true ↔
      now ≤ (s.ownerConfigs o).lastCheckIn + (s.ownerConfigs o).livenessCheckDuration := by
  simp [isOwnerAlive, hd]

/-- C1: the claim says every code path that runs the per-asset transfer
loop for an identity will, including the externally-invoked
proof-verification hook, first establishes that the liveness window has
lapsed, failing OwnerStillAlive otherwise. The code violates this: the
hook performs no liveness check, and here owner 1 is still alive at
time 60 (`isOwnerAlive` true) yet `customVerificationHook` succeeds and
executes the transfer loop, emitting an asset transfer. (The guarded
entry point `claimWithIdentity` computes the verification payload but
never invokes the verifier, so the hook is the only path to the loop.) -/
theorem c1_hook_transfers_while_owner_alive :
    isOwnerAlive c1S 1 60 = true ∧
    (customVerificationHook okEnv c1S c1World 1 c1Key c1Out).map (fun r => r.2.2) =
      Except.ok [Ev.identityVerified 1 99 5, Ev.balanceSnapshotTaken 1 7 1000,
        Ev.assetClaimed 1 5 7 10] :=
  ⟨rfl, rfl⟩

/-- C2: the claim says the sum of BPS rule amounts per asset across all
beneficiaries never exceeds 10000 after any sequence of allocation
calls. The code violates this: the zero-amount deletion path subtracts
the old BPS amount twice (once in `_processAssets`, again in
`_removeAssetFromWill`), so after allocating 5000 bps of asset 7 to
each of beneficiaries 11 and 12 and then deleting the rule of 12, the
recorded total drops to 0 while 11 still holds 5000 bps; beneficiary 13
can then be granted 10000 bps, and every call succeeds with the actual
allocated sum at 15000 > 10000. -/
theorem c2_deletion_breaks_bps_invariant :
    c2Result.map (fun s => sumBps (s.ownerConfigs 1) 7) = Except.ok 15000 ∧
    10000 < 15000 :=
  ⟨rfl, by decide⟩

/-- C3 counterexample: the claim says a claimed flag is never reset to
false by any subsequent operation, including setAllocation calls that
overwrite the same asset rule. Here the BPS rule of asset 7 has
claimed = true, and one `_processAssets` iteration overwriting it with
a 4000-bps rule succeeds and leaves the rule with claimed = false. -/
theorem c3_overwrite_resets_claimed :
    (c3Will.assetToShare 7).claimed = true ∧
    (processPair c3Will c3Totals 7 ⟨ShareType.BPS, 4000, false⟩).map
      (fun r => (r.1.assetToShare 7).claimed) = Except.ok false :=
  ⟨rfl, rfl⟩

/-- C3 amended: the claimed flag starts false, is set true at most once
by claim processing and is never reset by claim operations (the claim
loop is monotone in every claimed flag); allocation processing never
sets a claimed flag to true, and a rule written by an allocation call
with nonzero amount is a fresh rule with claimed = false. -/
theorem c3_claimed_monotone_and_fresh :
    (∀ (env : Env) (o c : Addr) (will : Will) (config : OwnerConfig) (world : World) (x : Addr),
       (will.assetToShare x).claimed = true →
       ((executeClaim env o c will config world).will.assetToShare x).claimed = true) ∧
    (∀ (pairs : List (Addr × Share)) (will : Will) (totals : Addr → Nat)
       (r : Will × (Addr → Nat)), processAssets will totals pairs = Except.ok r →
       ∀ x : Addr, (r.1.assetToShare x).claimed = true →
       (will.assetToShare x).claimed = true) ∧
    (∀ (will : Will) (totals : Addr → Nat) (a : Addr) (sh : Share) (r : Will × (Addr → Nat)),
       processPair will totals a sh = Except.ok r → sh.shareAmount ≠ 0 →
       (r.1.assetToShare a).claimed = false) :=
  ⟨fun env o c will config world x hx =>
     executeClaim_claimed_mono env o c will config world x hx,
   fun pairs will totals r h x h2 => processAssets_claimed_mono pairs will totals r h x h2,
   fun will totals a sh r h hnz => processPair_fresh_rule will totals a sh r h hnz⟩

theorem c3_claimed_monotone_and_fresh_witness :
    ((executeClaim okEnv 1 2 c3Will defaultConfig oneWorld).will.assetToShare 7).claimed = true ∧
    (c3Will.assetToShare 7).claimed = true ∧
    (resOverwrite.1.assetToShare 7).claimed = false :=
  ⟨c3_claimed_monotone_and_fresh.1 okEnv 1 2 c3Will defaultConfig oneWorld 7 rfl,
   c3_claimed_monotone_and_fresh.2.1 [] c3Will c3Totals (c3Will, c3Totals) rfl 7 rfl,
   c3_claimed_monotone_and_fresh.2.2 c3Will c3Totals 7 ⟨ShareType.BPS, 4000, false⟩
     resOverwrite rfl (by decide)⟩

/-- C4: the claim says a zero-amount update for an existing BPS rule
succeeds as the deletion path and frees its basis-point contribution
exactly once. The code violates this: the old amount is subtracted both
in `_processAssets` and again in `_removeAssetFromWill`, so with a sole
beneficiary holding 5000 bps of asset 7 (recorded total 5000) the
second subtraction underflows and the whole call reverts with the
Solidity 0.8 arithmetic panic. -/
theorem c4_zero_amount_bps_deletion_panics :
    c4Result = Except.error SErr.Panic :=
  rfl

/-- C5: the balance snapshot is taken at most once per (owner, asset)
(the snapshot block writes only when the taken flag is unset, and is a
no-op otherwise), is never modified afterwards (the claim loop
preserves a taken snapshot, and allocation calls do not touch snapshot
state), and every BPS claim amount is computed from the stored snapshot
as snapshot * amount / 10000 with truncating division; since the claim
loop snapshots an asset before computing its amount, this also covers
later claim calls by other beneficiaries against the same asset. -/
theorem c5_snapshot_once_immutable_bps :
    (∀ (o a : Addr) (config : OwnerConfig) (world : World),
       (snapshotIfNeeded o a config world).1.assetSnapshotTaken a = true ∧
       (config.assetSnapshotTaken a = true → (snapshotIfNeeded o a config world).1 = config)) ∧
    (∀ (o a : Addr) (share : Share) (config : OwnerConfig) (world : World),
       config.assetSnapshotTaken a = true → share.shareType = ShareType.BPS →
       calculateAmount o a share config world =
         config.assetBalanceSnapshot a * share.shareAmount / 10000) ∧
    (∀ (env : Env) (o c : Addr) (will : Will) (config : OwnerConfig) (world : World) (a : Addr),
       config.assetSnapshotTaken a = true →
       (executeClaim env o c will config world).config.assetSnapshotTaken a = true ∧
       (executeClaim env o c will config world).config.assetBalanceSnapshot a =
         config.assetBalanceSnapshot a) ∧
    (∀ (s : GlobalState) (w : World) (sender benef : Addr) (pairs : List (Addr × Share))
       (s2 : GlobalState), createWill s w sender benef pairs = Except.ok s2 →
       ∀ o a : Addr,
         (s2.ownerConfigs o).assetSnapshotTaken a = (s.ownerConfigs o).assetSnapshotTaken a ∧
         (s2.ownerConfigs o).assetBalanceSnapshot a = (s.ownerConfigs o).assetBalanceSnapshot a) :=
  ⟨fun o a config world =>
     ⟨snapshotIfNeeded_taken o a config world, fun h => snapshotIfNeeded_already o a config world h⟩,
   fun o a share config world h1 h2 => calculateAmount_bps_snapshot o a share config world h1 h2,
   fun env o c will config world a h => executeClaim_snap_mono env o c will config world a h,
   fun s w sender benef pairs s2 h o a => createWill_keeps_snapshots s w sender benef pairs s2 h o a⟩

theorem c5_snapshot_once_immutable_bps_witness :
    (snapshotIfNeeded 1 7 c5Cfg c1World).1 = c5Cfg ∧
    calculateAmount 1 7 (bpsShare 5000) c5Cfg c1World =
      c5Cfg.assetBalanceSnapshot 7 * (bpsShare 5000).shareAmount / 10000 ∧
    (executeClaim okEnv 1 2 c10Will c5Cfg c1World).config.assetBalanceSnapshot 7 =
      c5Cfg.assetBalanceSnapshot 7 ∧
    (resCreateWill5.ownerConfigs 1).assetSnapshotTaken 7 =
      (cfgdState.ownerConfigs 1).assetSnapshotTaken 7 :=
  ⟨(c5_snapshot_once_immutable_bps.1 1 7 c5Cfg c1World).2 rfl,
   c5_snapshot_once_immutable_bps.2.1 1 7 (bpsShare 5000) c5Cfg c1World rfl rfl,
   (c5_snapshot_once_immutable_bps.2.2.1 okEnv 1 2 c10Will c5Cfg c1World 7 rfl).2,
   (c5_snapshot_once_immutable_bps.2.2.2 cfgdState oneWorld 1 11 [(7, bpsShare 10)]
      resCreateWill5 rfl 1 7).1⟩

/-- C6 counterexample: the claim says `claim(owner)` fails with
OwnerStillAlive exactly when `isAlive(owner)` is true, with unconfigured
owners counted as alive. For the never-configured owner 1 at time 5,
`isOwnerAlive` reports true, yet the claim call fails with
NotBeneficiary (the liveness guard `lastCheckIn + window >= now` is
0 >= 5, false), not with OwnerStillAlive. -/
theorem c6_unconfigured_owner_counterexample :
    isOwnerAlive initialState 1 5 = true ∧
    claim okEnv initialState oneWorld 1 2 5 = Except.error SErr.NotBeneficiary :=
  ⟨rfl, rfl⟩

/-- C6 amended: `claim(owner)` fails with OwnerStillAlive exactly when
`lastCheckIn + livenessWindow >= now`; for configured owners
(livenessWindow nonzero) this coincides with `isAlive(owner)`, with the
inclusive boundary (still alive at exactly lastCheckIn + window, first
claimable at the next instant); a never-configured owner is reported
alive by `isAlive` but its claim instead fails NotBeneficiary whenever
now exceeds zero. -/
theorem c6_osa_iff_window_not_lapsed :
    (∀ (env : Env) (s : GlobalState) (w : World) (o c now : Nat),
       claim env s w o c now = Except.error SErr.OwnerStillAlive ↔
         now ≤ (s.ownerConfigs o).lastCheckIn + (s.ownerConfigs o).livenessCheckDuration) ∧
    (∀ (s : GlobalState) (o now : Nat), (s.ownerConfigs o).livenessCheckDuration ≠ 0 →
       (isOwnerAlive s o now = true ↔
         now ≤ (s.ownerConfigs o).lastCheckIn + (s.ownerConfigs o).livenessCheckDuration)) :=
  ⟨fun env s w o c now => claim_osa_iff env s w o c now,
   fun s o now hd => isOwnerAlive_iff s o now hd⟩

theorem c6_osa_iff_window_not_lapsed_witness :
    (claim okEnv cfgdState oneWorld 1 2 100 = Except.error SErr.OwnerStillAlive ↔
       100 ≤ (cfgdState.ownerConfigs 1).lastCheckIn +
         (cfgdState.ownerConfigs 1).livenessCheckDuration) ∧
    (isOwnerAlive cfgdState 1 100 = true ↔
       100 ≤ (cfgdState.ownerConfigs 1).lastCheckIn +
         (cfgdState.ownerConfigs 1).livenessCheckDuration) :=
  ⟨c6_osa_iff_window_not_lapsed.1 okEnv cfgdState oneWorld 1 2 100,
   c6_osa_iff_window_not_lapsed.2 cfgdState 1 100 (by decide)⟩

/-- C7: in a claim over a beneficiary with multiple assets each asset is
processed independently and without early exit: with a duplicate-free
asset list (as the allocation ledger maintains), the final share rule
of each listed asset equals the outcome of its own loop iteration
computed from that asset's initial state alone; each iteration either
leaves the rule unchanged (in particular a failed transfer leaves
claimed = false, retryable later) or marks it claimed = true (successful
transfer or zero-amount resolution); and the claim call as a whole can
only fail with the pre-loop eligibility errors, never because a
transfer failed. -/
theorem c7_per_asset_independent_no_early_exit :
    (∀ (env : Env) (o c : Addr) (will : Will) (config : OwnerConfig) (world : World),
       will.assets.Nodup → ∀ a ∈ will.assets,
       (executeClaim env o c will config world).will.assetToShare a =
         stepShareOutcome env o c (will.assetToShare a) (config.assetSnapshotTaken a)
           (config.assetBalanceSnapshot a) (world.balances a o) a) ∧
    (∀ (env : Env) (o c : Addr) (share : Share) (taken : Bool) (snap bal : Nat) (a : Addr),
       ((stepShareOutcome env o c share taken snap bal a).claimed = false →
          stepShareOutcome env o c share taken snap bal a = share) ∧
       (stepShareOutcome env o c share taken snap bal a = share ∨
          stepShareOutcome env o c share taken snap bal a = { share with claimed := true })) ∧
    (∀ (env : Env) (s : GlobalState) (w : World) (o c now : Nat) (e : SErr),
       claim env s w o c now = Except.error e →
       e = SErr.OwnerStillAlive ∨ e = SErr.NotBeneficiary) :=
  ⟨fun env o c will config world h a ha =>
     executeClaim_share_pointwise env o c will config world h a ha,
   fun env o c share taken snap bal a =>
     ⟨fun h => stepShareOutcome_unresolved env o c share taken snap bal a h,
      stepShareOutcome_cases env o c share taken snap bal a⟩,
   fun env s w o c now e h => claim_error_cases env s w o c now e h⟩

theorem c7_per_asset_independent_no_early_exit_witness :
    (executeClaim c7Env 1 2 c7Will defaultConfig c7World).will.assetToShare 8 =
      stepShareOutcome c7Env 1 2 (c7Will.assetToShare 8) (defaultConfig.assetSnapshotTaken 8)
        (defaultConfig.assetBalanceSnapshot 8) (c7World.balances 8 1) 8 ∧
    (executeClaim c7Env 1 2 c7Will defaultConfig c7World).will.assetToShare 7 =
      stepShareOutcome c7Env 1 2 (c7Will.assetToShare 7) (defaultConfig.assetSnapshotTaken 7)
        (defaultConfig.assetBalanceSnapshot 7) (c7World.balances 7 1) 7 ∧
    (SErr.NotBeneficiary = SErr.OwnerStillAlive ∨
      SErr.NotBeneficiary = SErr.NotBeneficiary) :=
  ⟨c7_per_asset_independent_no_early_exit.1 c7Env 1 2 c7Will defaultConfig c7World
     (by decide) 8 (by decide),
   c7_per_asset_independent_no_early_exit.1 c7Env 1 2 c7Will defaultConfig c7World
     (by decide) 7 (by decide),
   c7_per_asset_independent_no_early_exit.2.2 okEnv initialState oneWorld 1 2 5
     SErr.NotBeneficiary rfl⟩

/-- C8: a consumed proof-uniqueness token is recorded by the hook and
never removed: the hook rejects an already-consumed nullifier with
NullifierAlreadyUsed as its very first check (so nothing is committed,
by the rollback semantics of a revert), a successful hook records its
nullifier, and every state-changing operation of the contract preserves
every recorded nullifier — so the same token can never complete two
claims. -/
theorem c8_nullifier_single_use :
    (∀ (env : Env) (s : GlobalState) (w : World) (owner : Addr) (key : IdKey)
       (output : DiscloseOutput), s.nullifierUsed output.nullifier = true →
       customVerificationHook env s w owner key output =
         Except.error SErr.NullifierAlreadyUsed) ∧
    (∀ (env : Env) (s : GlobalState) (w : World) (owner : Addr) (key : IdKey)
       (output : DiscloseOutput) (r : GlobalState × World × List Ev),
       customVerificationHook env s w owner key output = Except.ok r →
       r.1.nullifierUsed output.nullifier = true) ∧
    (∀ (s : GlobalState) (x d t : Nat) (s2 : GlobalState) (n : Nat),
       configureLiveness s x d t = Except.ok s2 → s.nullifierUsed n = true →
       s2.nullifierUsed n = true) ∧
    (∀ (s : GlobalState) (x t : Nat) (s2 : GlobalState) (n : Nat),
       checkIn s x t = Except.ok s2 → s.nullifierUsed n = true → s2.nullifierUsed n = true) ∧
    (∀ (s : GlobalState) (w : World) (sender benef : Addr) (pairs : List (Addr × Share))
       (s2 : GlobalState) (n : Nat), createWill s w sender benef pairs = Except.ok s2 →
       s.nullifierUsed n = true → s2.nullifierUsed n = true) ∧
    (∀ (s : GlobalState) (w : World) (sender : Addr) (identity : BeneficiaryIdentity)
       (pairs : List (Addr × Share)) (s2 : GlobalState) (n : Nat),
       createIdentityWill s w sender identity pairs = Except.ok s2 →
       s.nullifierUsed n = true → s2.nullifierUsed n = true) ∧
    (∀ (s : GlobalState) (owner : Addr) (idHash : IdKey) (now : Nat) (s2 : GlobalState)
       (n : Nat), claimWithIdentity s owner idHash now = Except.ok s2 →
       s.nullifierUsed n = true → s2.nullifierUsed n = true) ∧
    (∀ (env : Env) (s : GlobalState) (w : World) (o c now : Nat)
       (r : GlobalState × World × List Ev) (n : Nat), claim env s w o c now = Except.ok r →
       s.nullifierUsed n = true → r.1.nullifierUsed n = true) ∧
    (∀ (env : Env) (s : GlobalState) (w : World) (owner : Addr) (key : IdKey)
       (output : DiscloseOutput) (r : GlobalState × World × List Ev) (n : Nat),
       customVerificationHook env s w owner key output = Except.ok r →
       s.nullifierUsed n = true → r.1.nullifierUsed n = true) :=
  ⟨fun env s w owner key output h => hook_rejects_used_nullifier env s w owner key output h,
   fun env s w owner key output r h => by
     rw [hook_sets_nullifier env s w owner key output r h, upd_same],
   fun s x d t s2 n h hn => by rw [configureLiveness_keeps_nullifiers s x d t s2 h]; exact hn,
   fun s x t s2 n h hn => by rw [checkIn_keeps_nullifiers s x t s2 h]; exact hn,
   fun s w sender benef pairs s2 n h hn => by
     rw [createWill_keeps_nullifiers s w sender benef pairs s2 h]; exact hn,
   fun s w sender identity pairs s2 n h hn => by
     rw [createIdentityWill_keeps_nullifiers s w sender identity pairs s2 h]; exact hn,
   fun s owner idHash now s2 n h hn => by
     rw [claimWithIdentity_keeps_state s owner idHash now s2 h]; exact hn,
   fun env s w o c now r n h hn => by rw [claim_keeps_nullifiers env s w o c now r h]; exact hn,
   fun env s w owner key output r n h hn => by
     rw [hook_sets_nullifier env s w owner key output r h]
     by_cases he : n = output.nullifier
     · rw [he, upd_same]
     · rw [upd_ne _ _ _ _ he]; exact hn⟩

theorem c8_nullifier_single_use_witness :
    customVerificationHook okEnv demoBase c1World 1 c1Key c1Out =
      Except.error SErr.NullifierAlreadyUsed ∧
    resHookC1.1.nullifierUsed 99 = true ∧
    resCfgLive.nullifierUsed 99 = true ∧
    resCheckIn.nullifierUsed 99 = true ∧
    resCreateWill8.nullifierUsed 99 = true ∧
    resCreateIdWill.nullifierUsed 99 = true ∧
    resClaimWithId.nullifierUsed 99 = true ∧
    resClaim.1.nullifierUsed 99 = true ∧
    resHook.1.nullifierUsed 99 = true :=
  ⟨c8_nullifier_single_use.1 okEnv demoBase c1World 1 c1Key c1Out rfl,
   c8_nullifier_single_use.2.1 okEnv c1S c1World 1 c1Key c1Out resHookC1 rfl,
   c8_nullifier_single_use.2.2.1 demoBase 1 100 10 resCfgLive 99 rfl rfl,
   c8_nullifier_single_use.2.2.2.1 demoBase 1 20 resCheckIn 99 rfl rfl,
   c8_nullifier_single_use.2.2.2.2.1 demoBase oneWorld 1 11 [(7, bpsShare 10)]
     resCreateWill8 99 rfl rfl,
   c8_nullifier_single_use.2.2.2.2.2.1 demoBase oneWorld 1 ⟨"x", "y", "z"⟩ []
     resCreateIdWill 99 rfl rfl,
   c8_nullifier_single_use.2.2.2.2.2.2.1 demoBase 1 c1Key 200 resClaimWithId 99 rfl rfl,
   c8_nullifier_single_use.2.2.2.2.2.2.2.1 okEnv demoBase c1World 1 2 200 resClaim 99 rfl rfl,
   c8_nullifier_single_use.2.2.2.2.2.2.2.2 okEnv demoBase c1World 1 c1Key demoOut77
     resHook 99 rfl rfl⟩

/-- C9: the transfer executor normalizes every outcome to a boolean and
never raises an error on a declined transfer: a reverted call yields
false, a call returning no data is success, a 32-byte return is read as
the returned boolean word (so the canonical boolean encodings are
checked literally), any other return shape is failure, and the
enclosing claim call can only fail with the pre-loop eligibility
errors, never because of a transfer outcome. -/
theorem c9_transfer_normalization :
    safeTransferSuccess CallRet.reverted = false ∧
    safeTransferSuccess (CallRet.returned []) = true ∧
    (∀ b : Bool, safeTransferSuccess (CallRet.returned (boolWord b)) = b) ∧
    (∀ data : List Nat, data.length = 32 →
       safeTransferSuccess (CallRet.returned data) = !(returnWord data == 0)) ∧
    (∀ data : List Nat, data.length ≠ 0 → data.length ≠ 32 →
       safeTransferSuccess (CallRet.returned data) = false) ∧
    (∀ (env : Env) (s : GlobalState) (w : World) (o c now : Nat) (e : SErr),
       claim env s w o c now = Except.error e →
       e = SErr.OwnerStillAlive ∨ e = SErr.NotBeneficiary) := by
  refine ⟨rfl, rfl, ?_, ?_, ?_, ?_⟩
  · intro b; cases b <;> rfl
  · intro data h
    simp only [safeTransferSuccess]
    rw [if_neg (by rw [h]; decide), if_pos h]
  · intro data h0 h32
    simp only [safeTransferSuccess]
    rw [if_neg h0, if_neg h32]
  · exact fun env s w o c now e h => claim_error_cases env s w o c now e h

theorem c9_transfer_normalization_witness :
    safeTransferSuccess (CallRet.returned (boolWord true)) = true ∧
    safeTransferSuccess (CallRet.returned (boolWord false)) = false ∧
    safeTransferSuccess (CallRet.returned (List.replicate 32 2)) =
      !(returnWord (List.replicate 32 2) == 0) ∧
    safeTransferSuccess (CallRet.returned [1, 2]) = false ∧
    (SErr.OwnerStillAlive = SErr.OwnerStillAlive ∨
      SErr.OwnerStillAlive = SErr.NotBeneficiary) :=
  ⟨c9_transfer_normalization.2.2.1 true,
   c9_transfer_normalization.2.2.1 false,
   c9_transfer_normalization.2.2.2.1 (List.replicate 32 2) (by decide),
   c9_transfer_normalization.2.2.2.2.1 [1, 2] (by decide) (by decide),
   by
     have := c9_transfer_normalization.2.2.2.2.2 okEnv cfgdState oneWorld 1 2 50
       SErr.OwnerStillAlive rfl
     exact this.imp id id⟩

/-- C10: the public direct claim takes only the owner as a parameter:
the will it resolves and the recipient of every transfer event are the
calling account itself, the wills of all other beneficiary keys of that
owner are untouched, and the configurations of all other owners are
untouched — a direct beneficiary can only trigger their own will and
can never direct the assets to a different claimant account. -/
theorem c10_direct_claim_resolves_caller :
    ∀ (env : Env) (s : GlobalState) (w : World) (owner caller now : Nat)
      (r : GlobalState × World × List Ev), claim env s w owner caller now = Except.ok r →
      (∀ e ∈ r.2.2, evClaimerIs caller e) ∧
      (∀ b : Addr, b ≠ caller → (r.1.ownerConfigs owner).beneficiaryToWill b =
        (s.ownerConfigs owner).beneficiaryToWill b) ∧
      (∀ o2 : Addr, o2 ≠ owner → r.1.ownerConfigs o2 = s.ownerConfigs o2) := by
  intro env s w owner caller now r h
  simp only [claim] at h
  split_ifs at h with h1 h2
  cases h
  refine ⟨?_, ?_, ?_⟩
  · exact executeClaim_events_claimer env owner caller _ _ w
  · intro b hb
    simp [upd, hb, executeClaim_keeps_beneficiaryToWill]
  · intro o2 ho2
    simp [upd, ho2]

theorem c10_direct_claim_resolves_caller_witness :
    evClaimerIs 2 (Ev.assetClaimed 1 2 7 10) ∧
    (resClaim.1.ownerConfigs 1).beneficiaryToWill 3 =
      (demoBase.ownerConfigs 1).beneficiaryToWill 3 ∧
    resClaim.1.ownerConfigs 5 = demoBase.ownerConfigs 5 :=
  ⟨(c10_direct_claim_resolves_caller okEnv demoBase c1World 1 2 200 resClaim rfl).1
     (Ev.assetClaimed 1 2 7 10) (by decide),
   (c10_direct_claim_resolves_caller okEnv demoBase c1World 1 2 200 resClaim rfl).2.1
     3 (by decide),
   (c10_direct_claim_resolves_caller okEnv demoBase c1World 1 2 200 resClaim rfl).2.2
     5 (by decide)⟩
